import Mathlib

set_option maxHeartbeats 1000000

/-!
Shallow embedding of kahook's authentication subsystem
(`internal/auth/auth.go`) and webhook ingest pipeline
(`internal/server`).  Go strings are modelled as Lean `String`s; raw
byte sequences (base64-decoded credentials, request bodies) as
`List Nat`.  Time is modelled in nanoseconds, matching Go's
`time.Duration`.
-/

/-- Go `strings.ToLower`.  The comparisons in the source are against
ASCII scheme keywords and header names; for ASCII text the per-char
`Char.toLower` mapping agrees with Go's. -/
def stringsToLower (s : String) : String :=
  String.mk (s.toList.map Char.toLower)

/-- Go `strings.SplitN(s, " ", 2)`: split at the first space into at
most two parts (the part before the first space and everything after
it); a string without a space yields that single part. -/
def splitNSpace2 (s : String) : List String :=
  if s.toList.contains ' ' then
    [String.mk (s.toList.takeWhile (· ≠ ' ')),
     String.mk ((s.toList.dropWhile (· ≠ ' ')).drop 1)]
  else [s]

/-- Go `strings.Trim(s, "/")`: remove all leading and trailing `/`
characters. -/
def stringsTrimSlash (s : String) : String :=
  String.mk (((s.toList.dropWhile (· == '/')).reverse.dropWhile (· == '/')).reverse)

/-- Go `http.Header`: a map from canonical header keys to lists of
values (one per occurrence of the header line, in order), modelled as
an association list keyed by the canonical form. -/
abbrev Header := List (String × List String)

/-- Go `http.Header.Get`: the first value stored for the key, or `""`
when the key is absent or has no values. -/
def headerGet (h : Header) (key : String) : String :=
  match h.lookup key with
  | some (v :: _) => v
  | _ => ""

/-- Go `subtle.ConstantTimeCompare` applied to the UTF-8 bytes of two
strings (`[]byte(s)`): since UTF-8 encoding is injective, it returns 1
exactly when the strings are equal and 0 otherwise. -/
def constantTimeCompareS (a b : String) : Nat := if a = b then 1 else 0

/-- Go `subtle.ConstantTimeCompare` on byte slices: 0 when the lengths
differ, otherwise 1 iff the contents are equal. -/
def constantTimeCompareB (x y : List Nat) : Nat :=
  if x.length ≠ y.length then 0 else if x = y then 1 else 0

/-- The HTTP request data the auth strategies and the webhook handler
observe: method, URL path, header map, and the deadline (if any) of the
request's context (absolute, nanoseconds). -/
structure Request where
  method : String
  path : String
  headers : Header
  ctxDeadline : Option Nat
deriving DecidableEq

/-- Value of a character in the standard base64 alphabet
(`base64.StdEncoding`'s `encodeStd`). -/
def b64Val (c : Char) : Option Nat :=
  if 'A' ≤ c ∧ c ≤ 'Z' then some (c.toNat - 65)
  else if 'a' ≤ c ∧ c ≤ 'z' then some (c.toNat - 71)
  else if '0' ≤ c ∧ c ≤ '9' then some (c.toNat + 4)
  else if c = '+' then some 62
  else if c = '/' then some 63
  else none

/-- Decode base64 characters in 4-character quanta with `=` padding, as
Go's `base64.StdEncoding.DecodeString` does once newlines are removed:
the input length must be a multiple of 4, padding may only occur in the
final quantum, and (matching Go's non-strict default) trailing bits are
not checked. -/
def decodeQuanta : List Char → Option (List Nat)
  | [] => some []
  | a :: b :: c :: d :: rest =>
    match b64Val a, b64Val b with
    | some va, some vb =>
      if c = '=' then
        if d = '=' ∧ rest = [] then some [va * 4 + vb / 16] else none
      else
        match b64Val c with
        | some vc =>
          if d = '=' then
            if rest = [] then some [va * 4 + vb / 16, vb % 16 * 16 + vc / 4] else none
          else
            match b64Val d, decodeQuanta rest with
            | some vd, some tail =>
              some ((va * 4 + vb / 16) :: (vb % 16 * 16 + vc / 4) :: (vc % 4 * 64 + vd) :: tail)
            | _, _ => none
        | none => none
    | _, _ => none
  | _ => none

/-- Go `base64.StdEncoding.DecodeString`: the decoder ignores `\r` and
`\n` and decodes the remaining characters in padded quanta. -/
def base64Decode (s : String) : Option (List Nat) :=
  decodeQuanta (s.toList.filter (fun c => c != '\r' && c != '\n'))

/-- Go `strings.Cut(cs, ":")` on the decoded credential bytes: split at
the first `:` byte (58); `none` when no colon is present. -/
def cutColon : List Nat → Option (List Nat × List Nat)
  | [] => none
  | b :: rest =>
    if b = 58 then some ([], rest)
    else
      match cutColon rest with
      | some (u, p) => some (b :: u, p)
      | none => none

/-- `net/http`'s `Request.BasicAuth` header parsing (`parseBasicAuth`):
case-insensitively match the `"Basic "` prefix (Go uses
`ascii.EqualFold`, which for the ASCII literal `"Basic "` coincides
with comparing lowercased text), base64-decode the remainder, and split
the decoded bytes at the first colon into username and password. -/
def parseBasicAuth (auth : String) : Option (List Nat × List Nat) :=
  if auth.length < 6 then none
  else if stringsToLower (auth.take 6) = "basic " then
    match base64Decode (auth.drop 6) with
    | some bytes => cutColon bytes
    | none => none
  else none

/-- The UTF-8 encoding of one character (code point to byte
sequence). -/
def charUTF8 (c : Char) : List Nat :=
  let n := c.toNat
  if n < 128 then [n]
  else if n < 2048 then [192 + n / 64, 128 + n % 64]
  else if n < 65536 then [224 + n / 4096, 128 + n / 64 % 64, 128 + n % 64]
  else [240 + n / 262144, 128 + n / 4096 % 64, 128 + n / 64 % 64, 128 + n % 64]

/-- The UTF-8 bytes of a Go string (`[]byte(s)`). -/
def strBytes (s : String) : List Nat := (s.toList.map charUTF8).flatten

/-- `BasicAuth` (auth.go:26-28): a username→password map.  Go strings
are byte sequences, so both usernames and passwords are byte lists. -/
structure BasicAuth where
  users : List (List Nat × List Nat)
deriving DecidableEq

/-- `NewBasicAuth` (auth.go:30-32): stores the caller's map value.  (Go
maps are references; the aliasing consequence is modelled separately in
the heap model below.) -/
def NewBasicAuth (users : List (List Nat × List Nat)) : BasicAuth := ⟨users⟩

/-- `BasicAuth.Authenticate` (auth.go:34-46). -/
def BasicAuth.Authenticate (a : BasicAuth) (r : Request) : Bool :=
  match parseBasicAuth (headerGet r.headers "Authorization") with
  | none => false
  | some (username, password) =>
    match a.users.lookup username with
    | none => false
    | some expected => constantTimeCompareB password expected == 1

/-- `BearerAuth` (auth.go:49-51): the configured token list. -/
structure BearerAuth where
  tokens : List String
deriving DecidableEq

/-- `NewBearerAuth` (auth.go:53-58): stores a copy of the token slice.
In the pure model the copy is the value itself; the aliasing
consequence of the copy is modelled separately in the heap model. -/
def NewBearerAuth (tokens : List String) : BearerAuth := ⟨tokens⟩

/-- The token-matching loop of `BearerAuth.Authenticate`
(auth.go:76-79), instrumented with the number of
`subtle.ConstantTimeCompare` invocations it performs: returns the final
`matched` accumulator together with the invocation count. -/
def bearerLoop (tokens : List String) (incoming : String) : Nat × Nat :=
  tokens.foldl (fun acc t => (acc.1 ||| constantTimeCompareS incoming t, acc.2 + 1)) (0, 0)

/-- `BearerAuth.Authenticate` (auth.go:60-81). -/
def BearerAuth.Authenticate (a : BearerAuth) (r : Request) : Bool :=
  if headerGet r.headers "Authorization" = "" then false
  else
    match splitNSpace2 (headerGet r.headers "Authorization") with
    | [p0, p1] =>
      if stringsToLower p0 ≠ "bearer" then false
      else (bearerLoop a.tokens p1).1 == 1
    | _ => false

/-- `MultiAuth` (auth.go:86-89): optional Basic and Bearer
sub-strategies (`nil` when the corresponding credentials are not
configured). -/
structure MultiAuth where
  basic : Option BasicAuth
  bearer : Option BearerAuth
deriving DecidableEq

/-- `NewMultiAuth` (auth.go:93-102). -/
def NewMultiAuth (users : List (List Nat × List Nat)) (tokens : List String) : MultiAuth :=
  { basic := if users.length > 0 then some (NewBasicAuth users) else none
    bearer := if tokens.length > 0 then some (NewBearerAuth tokens) else none }

/-- `MultiAuth.HasAuth` (auth.go:105-107). -/
def MultiAuth.HasAuth (m : MultiAuth) : Bool :=
  m.basic.isSome || m.bearer.isSome

/-- `MultiAuth.Authenticate` (auth.go:114-143). -/
def MultiAuth.Authenticate (m : MultiAuth) (r : Request) : Bool :=
  if !m.HasAuth then true
  else if headerGet r.headers "Authorization" = "" then false
  else
    match splitNSpace2 (headerGet r.headers "Authorization") with
    | [p0, _] =>
      if stringsToLower p0 = "basic" then
        match m.basic with
        | some b => b.Authenticate r
        | none => false
      else if stringsToLower p0 = "bearer" then
        match m.bearer with
        | some b => b.Authenticate r
        | none => false
      else false
    | _ => false

/-!
## Heap model for construction-time aliasing

Go maps and slices are reference values.  `NewBasicAuth` stores the
caller's map argument as-is, so the strategy's field and the caller's
variable refer to the same map cell; `NewBearerAuth` `make`s a fresh
slice and `copy`s the caller's tokens into it.  The tiny heap below
makes that observable: map cells and slice cells are addressed by
index, construction either reuses the caller's cell or allocates a
fresh one, and `Authenticate` reads its cell at call time.
-/

/-- Heap of map cells (username→password maps) and slice cells (token
slices), addressed by position. -/
structure AuthHeap where
  maps : List (List (List Nat × List Nat))
  slices : List (List String)
deriving DecidableEq

def AuthHeap.readMap (h : AuthHeap) (l : Nat) : List (List Nat × List Nat) :=
  (h.maps[l]?).getD []

def AuthHeap.writeMap (h : AuthHeap) (l : Nat) (v : List (List Nat × List Nat)) : AuthHeap :=
  { h with maps := h.maps.set l v }

def AuthHeap.readSlice (h : AuthHeap) (l : Nat) : List String :=
  (h.slices[l]?).getD []

def AuthHeap.writeSlice (h : AuthHeap) (l : Nat) (v : List String) : AuthHeap :=
  { h with slices := h.slices.set l v }

/-- A `BasicAuth` value as it sits in the heap model: the location of
the map its `users` field refers to. -/
structure BasicAuthRef where
  usersLoc : Nat
deriving DecidableEq

/-- A `BearerAuth` value in the heap model: the location of the slice
its `tokens` field refers to. -/
structure BearerAuthRef where
  tokensLoc : Nat
deriving DecidableEq

/-- `NewBasicAuth` (auth.go:30-32) in the heap model: `&BasicAuth{users: users}`
stores the caller's map reference; no cell is allocated or copied. -/
def NewBasicAuthH (h : AuthHeap) (callerLoc : Nat) : AuthHeap × BasicAuthRef :=
  (h, ⟨callerLoc⟩)

/-- `NewBearerAuth` (auth.go:53-58) in the heap model: `make` a fresh
slice cell and `copy` the caller's tokens into it. -/
def NewBearerAuthH (h : AuthHeap) (callerLoc : Nat) : AuthHeap × BearerAuthRef :=
  ({ h with slices := h.slices ++ [h.readSlice callerLoc] }, ⟨h.slices.length⟩)

/-- `BasicAuth.Authenticate` in the heap model: the `users` map is read
through the stored reference at call time. -/
def BasicAuthRef.AuthenticateH (a : BasicAuthRef) (h : AuthHeap) (r : Request) : Bool :=
  (NewBasicAuth (h.readMap a.usersLoc)).Authenticate r

/-- `BearerAuth.Authenticate` in the heap model: the `tokens` slice is
read through the stored reference at call time. -/
def BearerAuthRef.AuthenticateH (a : BearerAuthRef) (h : AuthHeap) (r : Request) : Bool :=
  (NewBearerAuth (h.readSlice a.tokensLoc)).Authenticate r

/-!
## Webhook ingest pipeline (internal/server)
-/

/-- `maxBodyBytes` (1 MiB). -/
def maxBodyBytes : Nat := 1 <<< 20

/-- `produceTimeout` (10 seconds), in nanoseconds like Go's
`10 * time.Second`. -/
def produceTimeout : Nat := 10 * 1000000000

/-- `internalHeaders`: the denylist of hop-by-hop / framework headers
not forwarded to Kafka (the Go map's key set; membership means the
mapped value `true`, absence means the zero value `false`). -/
def internalHeadersList : List String :=
  ["authorization", "content-type", "content-length", "host",
   "user-agent", "accept", "accept-encoding", "connection"]

/-- `isInternalHeader` (metrics.go:376-378). -/
def isInternalHeader (key : String) : Bool :=
  internalHeadersList.contains (stringsToLower key)

/-- The observable parts of an HTTP response produced by the handler:
status code, the `error` kind and `message` fields of the JSON error
body (`writeError`), the `WWW-Authenticate` header, and the string
fields of a JSON success body (`writeJSON` with a string map). -/
structure Response where
  status : Nat
  errorKind : Option String := none
  errorMessage : Option String := none
  wwwAuthenticate : Option String := none
  bodyFields : List (String × String) := []
deriving DecidableEq

/-- `Server.writeError` (metrics.go:361-368). -/
def writeError (code : Nat) (errorType message : String) : Response :=
  { status := code, errorKind := some errorType, errorMessage := some message }

/-- `Server.writeUnauthorized` (metrics.go:342-359): 401 with a
`WWW-Authenticate` challenge chosen from the declared scheme. -/
def writeUnauthorized (r : Request) : Response :=
  let parts := splitNSpace2 (headerGet r.headers "Authorization")
  let scheme := stringsToLower (parts.headD "")
  let base := writeError 401 "unauthorized" "invalid or missing credentials"
  if scheme = "bearer" then { base with wwwAuthenticate := some "Bearer realm=\"kahook\"" }
  else { base with wwwAuthenticate := some "Basic realm=\"kahook\"" }

/-- One call to `KafkaProducer.Produce`: topic, optional key bytes,
value bytes, forwarded headers, and the absolute deadline of the
`produceCtx` passed to it. -/
structure ProduceCall where
  topic : String
  key : Option String
  value : List Nat
  headers : List (String × String)
  deadline : Nat
deriving DecidableEq

/-- Go `context.WithTimeout(parent, d)` evaluated at time `now`: the
child context's deadline is `now + d`, capped by the parent's deadline
when the parent has an earlier one. -/
def withTimeout (parentDeadline : Option Nat) (now d : Nat) : Nat :=
  match parentDeadline with
  | none => now + d
  | some pd => min pd (now + d)

/-- The first event observed by the `select` in `Producer.Produce`
(kafka producer wrapper): either an event arrives on the delivery
channel — a `*kafka.Message` with or without a delivery error, a
`kafka.Error`, or an unexpected event type — or the context's done
channel fires first (cancellation or deadline expiry). -/
inductive ProduceEvent
  | delivered
  | deliveryFailed
  | kafkaError
  | unexpectedEvent
  | ctxDone
deriving DecidableEq

/-- `Producer.Produce` (kafka producer wrapper): a nil error is
returned only for a delivery report with no error; every other branch —
including the context's done channel firing first — returns an
error. -/
def producerProduce (ev : ProduceEvent) : Bool :=
  match ev with
  | .delivered => true
  | _ => false

/-- Header projection (metrics.go:295-300): copy every request header
whose key is not internal, taking its first value (`v[0]`).  A key with
an empty value list cannot arise from a parsed request and is skipped
here. -/
def projectHeaders (hs : Header) : List (String × String) :=
  hs.filterMap (fun kv =>
    match kv.2 with
    | [] => none
    | v :: _ => if isInternalHeader kv.1 then none else some (kv.1, v))

/-- The per-request environment of `webhookHandler` that is not part of
the request value itself: the outcome of `io.ReadAll` on the
size-limited body (`none` means a read failure other than the size
limit; `some b` means the full inbound body bytes, which trigger the
`MaxBytesError` branch when longer than `maxBodyBytes`), the Kafka
delivery outcome, the time at which `context.WithTimeout` is evaluated,
and the `X-Request-ID` already set by `RequestIDMiddleware`. -/
structure WebhookEnv where
  bodyRead : Option (List Nat)
  event : ProduceEvent
  now : Nat
  requestID : String
deriving DecidableEq

/-- `Server.webhookHandler` (metrics.go:253-338) as a pure function of
the request and its environment.  Returns the response together with
the list of `Produce` calls made. -/
def webhookHandler (m : MultiAuth) (r : Request) (env : WebhookEnv) :
    Response × List ProduceCall :=
  if r.method ≠ "POST" then
    (writeError 405 "method_not_allowed" "only POST is allowed", [])
  else if !m.Authenticate r then
    (writeUnauthorized r, [])
  else
    if stringsTrimSlash r.path = "" || (stringsTrimSlash r.path).toList.contains '/' then
      (writeError 400 "invalid_topic" "topic name must be a single path segment", [])
    else if stringsTrimSlash r.path = "health" || stringsTrimSlash r.path = "ready"
        || stringsTrimSlash r.path = "metrics" then
      (writeError 400 "reserved_topic" "cannot use reserved topic name", [])
    else
      match env.bodyRead with
      | none => (writeError 400 "read_error" "failed to read request body", [])
      | some body =>
        if body.length > maxBodyBytes then
          (writeError 413 "body_too_large"
            "request body exceeds maximum size of 1048576 bytes", [])
        else if body.length = 0 then
          (writeError 400 "empty_body" "request body cannot be empty", [])
        else
          let key : Option String :=
            if headerGet r.headers "X-Webhook-Key" ≠ "" then
              some (headerGet r.headers "X-Webhook-Key")
            else none
          let call : ProduceCall :=
            { topic := stringsTrimSlash r.path
              key := key
              value := body
              headers := projectHeaders r.headers
              deadline := withTimeout r.ctxDeadline env.now produceTimeout }
          if producerProduce env.event then
            ({ status := 202
               bodyFields := [("status", "accepted"),
                              ("topic", stringsTrimSlash r.path),
                              ("request_id", env.requestID)] },
             [call])
          else
            (writeError 500 "produce_error" "failed to send message to kafka", [call])

/-!
## Helper lemmas
-/

theorem constantTimeCompareB_eq_one (x y : List Nat) :
    constantTimeCompareB x y = 1 ↔ x = y := by
  rcases eq_or_ne x y with rfl | hne
  · simp [constantTimeCompareB]
  · simp [constantTimeCompareB, hne, ite_self]

theorem bearerLoop_go (x : String) (T : List String) (m k : Nat) :
    T.foldl (fun acc t => (acc.1 ||| constantTimeCompareS x t, acc.2 + 1)) (m, k)
      = (m ||| (if x ∈ T then 1 else 0), k + T.length) := by
  induction T generalizing m k with
  | nil => simp
  | cons t ts ih =>
    rw [List.foldl_cons, ih]
    have hstep : constantTimeCompareS x t ||| (if x ∈ ts then 1 else 0)
        = if x ∈ t :: ts then 1 else 0 := by
      by_cases hxt : x = t
      · subst hxt
        by_cases hxs : x ∈ ts <;> simp [constantTimeCompareS, hxs]
      · by_cases hxs : x ∈ ts <;> simp [constantTimeCompareS, hxt, hxs]
    rw [Prod.mk.injEq]
    constructor
    · rw [Nat.lor_assoc, hstep]
    · simp [List.length_cons]
      omega

theorem bearerLoop_spec (T : List String) (x : String) :
    bearerLoop T x = (if x ∈ T then 1 else 0, T.length) := by
  have h := bearerLoop_go x T 0 0
  simpa [bearerLoop] using h

theorem bearerAuth_eq_of_header (T : List String) (r : Request) (x scheme : String)
    (hsplit : splitNSpace2 (headerGet r.headers "Authorization") = [scheme, x])
    (hscheme : stringsToLower scheme = "bearer") :
    (NewBearerAuth T).Authenticate r = decide (x ∈ T) := by
  have hne : headerGet r.headers "Authorization" ≠ "" := by
    intro h
    rw [h] at hsplit
    have hz : splitNSpace2 "" = [""] := rfl
    rw [hz] at hsplit
    simp at hsplit
  unfold BearerAuth.Authenticate NewBearerAuth
  rw [if_neg hne, hsplit]
  simp only [hscheme, ne_eq, not_true_eq_false, if_false, bearerLoop_spec]
  by_cases hx : x ∈ T <;> simp [hx]

/-!
## Claim theorems
-/

/-- C1: for every configured token set `T` and every request carrying
`Authorization: <scheme> <x>` with a case-insensitive `bearer` scheme
keyword and exactly one space separator, `BearerAuth.Authenticate`
returns true iff `x ∈ T`, independent of the order of `T`; the
constant-time matcher is invoked exactly `|T|` times regardless of
where in `T` a match occurs; and a header without the separator or a
missing/empty `Authorization` header yields false. -/
theorem bearer_authenticate_spec :
    (∀ (T : List String) (r : Request) (x scheme : String),
        splitNSpace2 (headerGet r.headers "Authorization") = [scheme, x] →
        stringsToLower scheme = "bearer" →
        (((NewBearerAuth T).Authenticate r = true ↔ x ∈ T)
          ∧ (bearerLoop T x).2 = T.length
          ∧ ∀ T' : List String, T.Perm T' →
              (NewBearerAuth T).Authenticate r = (NewBearerAuth T').Authenticate r))
    ∧ (∀ (T : List String) (r : Request),
        (splitNSpace2 (headerGet r.headers "Authorization")).length ≠ 2 →
        (NewBearerAuth T).Authenticate r = false)
    ∧ (∀ (T : List String) (r : Request),
        headerGet r.headers "Authorization" = "" →
        (NewBearerAuth T).Authenticate r = false) := by
  refine ⟨?_, ?_, ?_⟩
  · intro T r x scheme hsplit hscheme
    refine ⟨?_, ?_, ?_⟩
    · rw [bearerAuth_eq_of_header T r x scheme hsplit hscheme]
      simp
    · rw [bearerLoop_spec]
    · intro T' hperm
      rw [bearerAuth_eq_of_header T r x scheme hsplit hscheme,
          bearerAuth_eq_of_header T' r x scheme hsplit hscheme]
      simp [hperm.mem_iff]
  · intro T r hlen
    unfold BearerAuth.Authenticate NewBearerAuth
    by_cases hh : headerGet r.headers "Authorization" = ""
    · simp [hh]
    · rw [if_neg hh]
      generalize hs : splitNSpace2 (headerGet r.headers "Authorization") = parts
      rw [hs] at hlen
      rcases parts with _ | ⟨p0, _ | ⟨p1, _ | ⟨p2, rest⟩⟩⟩ <;> simp at hlen ⊢
  · intro T r hh
    unfold BearerAuth.Authenticate NewBearerAuth
    simp [hh]

def reqBearerTok : Request :=
  { method := "POST", path := "/t",
    headers := [("Authorization", ["Bearer tok"])], ctxDeadline := none }

/-- Witness for C1: a concrete two-token set and a request carrying
`Authorization: Bearer tok`. -/
theorem bearer_authenticate_spec_witness :
    ((NewBearerAuth ["a", "tok"]).Authenticate reqBearerTok = true ↔ "tok" ∈ (["a", "tok"] : List String))
      ∧ (bearerLoop ["a", "tok"] "tok").2 = (["a", "tok"] : List String).length :=
  ⟨(bearer_authenticate_spec.1 ["a", "tok"] reqBearerTok "tok" "Bearer" (by decide) (by decide)).1,
   (bearer_authenticate_spec.1 ["a", "tok"] reqBearerTok "tok" "Bearer" (by decide) (by decide)).2.1⟩

def heapUsers : AuthHeap :=
  { maps := [[(strBytes "admin", strBytes "pw")]], slices := [] }

def reqBasicAdminPw : Request :=
  { method := "POST", path := "/t",
    headers := [("Authorization", ["Basic YWRtaW46cHc="])], ctxDeadline := none }

/-- C2 counterexample: `NewBasicAuth` stores the caller's map without
copying (auth.go:30-32), so mutating the caller's map after
construction does change the outcome of a subsequent `Authenticate`
call: with the map cell holding `admin ↦ pw`, the request
authenticates; after emptying that same cell through the caller's
reference, it no longer does. -/
theorem credential_copy_counterexample :
    ((NewBasicAuthH heapUsers 0).2.AuthenticateH
        (NewBasicAuthH heapUsers 0).1 reqBasicAdminPw = true)
    ∧ ((NewBasicAuthH heapUsers 0).2.AuthenticateH
        ((NewBasicAuthH heapUsers 0).1.writeMap 0 []) reqBasicAdminPw = false) := by
  decide

/-- C2 amended: only the Bearer strategy takes a defensive copy of its
credential store.  `NewBearerAuth` copies the caller's token slice, so
mutating the caller's slice after construction never changes the
outcome of a subsequent `Authenticate` call; `NewBasicAuth` stores the
caller's map by reference, so after the caller mutates the map,
`Authenticate` evaluates against the mutated contents. -/
theorem credential_copy_amended :
    (∀ (h : AuthHeap) (loc : Nat) (newTokens : List String) (r : Request),
        loc < h.slices.length →
        (NewBearerAuthH h loc).2.AuthenticateH
            ((NewBearerAuthH h loc).1.writeSlice loc newTokens) r
          = (NewBearerAuthH h loc).2.AuthenticateH (NewBearerAuthH h loc).1 r)
    ∧ (∀ (h : AuthHeap) (loc : Nat) (newUsers : List (List Nat × List Nat)) (r : Request),
        loc < h.maps.length →
        (NewBasicAuthH h loc).2.AuthenticateH
            ((NewBasicAuthH h loc).1.writeMap loc newUsers) r
          = (NewBasicAuth newUsers).Authenticate r) := by
  constructor
  · intro h loc newTokens r hloc
    unfold NewBearerAuthH BearerAuthRef.AuthenticateH AuthHeap.writeSlice AuthHeap.readSlice
    simp only
    rw [List.getElem?_set_ne (ne_of_lt hloc)]
  · intro h loc newUsers r hloc
    unfold NewBasicAuthH BasicAuthRef.AuthenticateH AuthHeap.writeMap AuthHeap.readMap
    simp only
    rw [List.getElem?_set_eq_of_lt newUsers hloc]
    rfl

def heapTok : AuthHeap := { maps := [], slices := [["tok"]] }

/-- Witness for the amended C2 at a concrete heap: mutating the
caller's token slice after `NewBearerAuth` leaves authentication
unchanged, and `NewBasicAuth` reads the mutated map. -/
theorem credential_copy_amended_witness :
    ((NewBearerAuthH heapTok 0).2.AuthenticateH
        ((NewBearerAuthH heapTok 0).1.writeSlice 0 []) reqBearerTok
      = (NewBearerAuthH heapTok 0).2.AuthenticateH (NewBearerAuthH heapTok 0).1 reqBearerTok)
    ∧ ((NewBasicAuthH heapUsers 0).2.AuthenticateH
        ((NewBasicAuthH heapUsers 0).1.writeMap 0 []) reqBasicAdminPw
      = (NewBasicAuth []).Authenticate reqBasicAdminPw) :=
  ⟨credential_copy_amended.1 heapTok 0 [] reqBearerTok (by decide),
   credential_copy_amended.2 heapUsers 0 [] reqBasicAdminPw (by decide)⟩

/-- C4: for every username→password map `U` and every request,
`BasicAuth.Authenticate` returns true iff the `Authorization` header
parses as well-formed HTTP Basic credentials (case-insensitive
`Basic ` prefix, valid base64, a colon in the decoded bytes) whose
username exists in `U` and whose supplied password equals the stored
one; an absent or malformed header or an unknown username yields
false.  The function is total and boolean, so no error outcome
exists. -/
theorem basic_authenticate_spec (users : List (List Nat × List Nat)) (r : Request) :
    (NewBasicAuth users).Authenticate r = true ↔
      ∃ u p, parseBasicAuth (headerGet r.headers "Authorization") = some (u, p)
        ∧ users.lookup u = some p := by
  unfold BasicAuth.Authenticate NewBasicAuth
  cases hp : parseBasicAuth (headerGet r.headers "Authorization") with
  | none => simp
  | some up =>
    obtain ⟨u, p⟩ := up
    rcases hl : users.lookup u with _ | expected <;> simp [hl, constantTimeCompareB_eq_one]
    constructor
    · rintro rfl
      exact ⟨u, p, ⟨rfl, rfl⟩, hl⟩
    · rintro ⟨u', p', ⟨rfl, rfl⟩, hl'⟩
      rw [hl] at hl'
      exact (Option.some.inj hl').symm

/-- Witness for C4 at a concrete map and request: `admin:pw` encoded as
`Basic YWRtaW46cHc=` against the map `admin ↦ pw`. -/
theorem basic_authenticate_spec_witness :
    (NewBasicAuth [(strBytes "admin", strBytes "pw")]).Authenticate reqBasicAdminPw = true ↔
      ∃ u p, parseBasicAuth (headerGet reqBasicAdminPw.headers "Authorization") = some (u, p)
        ∧ [(strBytes "admin", strBytes "pw")].lookup u = some p :=
  basic_authenticate_spec [(strBytes "admin", strBytes "pw")] reqBasicAdminPw

/-- C3: the auto-detecting composite.  With no users and no tokens
configured, `HasAuth` is false and `Authenticate` returns true for
every request (no `Authorization` header required).  Otherwise it
rejects a missing header or one without exactly two space-separated
parts, delegates to the Basic sub-strategy for a case-insensitive
`basic` scheme (rejecting when Basic is not configured), delegates to
the Bearer sub-strategy for `bearer` (rejecting when Bearer is not
configured), and rejects every other scheme. -/
theorem multiauth_authenticate_spec :
    (∀ (users : List (List Nat × List Nat)) (tokens : List String),
        (NewMultiAuth users tokens).HasAuth = false ↔ users = [] ∧ tokens = [])
    ∧ (∀ (m : MultiAuth) (r : Request), m.HasAuth = false → m.Authenticate r = true)
    ∧ (∀ (m : MultiAuth) (r : Request), m.HasAuth = true →
        headerGet r.headers "Authorization" = "" → m.Authenticate r = false)
    ∧ (∀ (m : MultiAuth) (r : Request), m.HasAuth = true →
        (splitNSpace2 (headerGet r.headers "Authorization")).length ≠ 2 →
        m.Authenticate r = false)
    ∧ (∀ (m : MultiAuth) (r : Request) (p0 p1 : String), m.HasAuth = true →
        splitNSpace2 (headerGet r.headers "Authorization") = [p0, p1] →
        stringsToLower p0 = "basic" →
        ((∀ b, m.basic = some b → m.Authenticate r = b.Authenticate r)
          ∧ (m.basic = none → m.Authenticate r = false)))
    ∧ (∀ (m : MultiAuth) (r : Request) (p0 p1 : String), m.HasAuth = true →
        splitNSpace2 (headerGet r.headers "Authorization") = [p0, p1] →
        stringsToLower p0 = "bearer" →
        ((∀ b, m.bearer = some b → m.Authenticate r = b.Authenticate r)
          ∧ (m.bearer = none → m.Authenticate r = false)))
    ∧ (∀ (m : MultiAuth) (r : Request) (p0 p1 : String), m.HasAuth = true →
        splitNSpace2 (headerGet r.headers "Authorization") = [p0, p1] →
        stringsToLower p0 ≠ "basic" → stringsToLower p0 ≠ "bearer" →
        m.Authenticate r = false) := by
  refine ⟨?_, ?_, ?_, ?_, ?_, ?_, ?_⟩
  · intro users tokens
    unfold NewMultiAuth MultiAuth.HasAuth
    rcases users with _ | ⟨u0, us⟩ <;> rcases tokens with _ | ⟨t0, ts⟩ <;> simp
  · intro m r hauth
    unfold MultiAuth.Authenticate
    simp [hauth]
  · intro m r hauth hh
    unfold MultiAuth.Authenticate
    simp [hauth, hh]
  · intro m r hauth hlen
    unfold MultiAuth.Authenticate
    by_cases hh : headerGet r.headers "Authorization" = ""
    · simp [hauth, hh]
    · simp only [hauth, Bool.not_true, if_false, if_neg hh]
      generalize hs : splitNSpace2 (headerGet r.headers "Authorization") = parts
      rw [hs] at hlen
      rcases parts with _ | ⟨p0, _ | ⟨p1, _ | ⟨p2, rest⟩⟩⟩ <;> simp at hlen ⊢
  · intro m r p0 p1 hauth hsplit hscheme
    have hh : headerGet r.headers "Authorization" ≠ "" := by
      intro h
      rw [h] at hsplit
      have hz : splitNSpace2 "" = [""] := rfl
      rw [hz] at hsplit
      simp at hsplit
    constructor
    · intro b hb
      unfold MultiAuth.Authenticate
      simp only [hauth, Bool.not_true, if_false, if_neg hh]
      rw [hsplit]
      simp [hscheme, hb]
    · intro hb
      unfold MultiAuth.Authenticate
      simp only [hauth, Bool.not_true, if_false, if_neg hh]
      rw [hsplit]
      simp [hscheme, hb]
  · intro m r p0 p1 hauth hsplit hscheme
    have hh : headerGet r.headers "Authorization" ≠ "" := by
      intro h
      rw [h] at hsplit
      have hz : splitNSpace2 "" = [""] := rfl
      rw [hz] at hsplit
      simp at hsplit
    have hnb : stringsToLower p0 ≠ "basic" := by
      rw [hscheme]
      decide
    constructor
    · intro b hb
      unfold MultiAuth.Authenticate
      simp only [hauth, Bool.not_true, if_false, if_neg hh]
      rw [hsplit]
      simp [hscheme, hnb, hb]
    · intro hb
      unfold MultiAuth.Authenticate
      simp only [hauth, Bool.not_true, if_false, if_neg hh]
      rw [hsplit]
      simp [hscheme, hnb, hb]
  · intro m r p0 p1 hauth hsplit hb1 hb2
    have hh : headerGet r.headers "Authorization" ≠ "" := by
      intro h
      rw [h] at hsplit
      have hz : splitNSpace2 "" = [""] := rfl
      rw [hz] at hsplit
      simp at hsplit
    unfold MultiAuth.Authenticate
    simp only [hauth, Bool.not_true, if_false, if_neg hh]
    rw [hsplit]
    simp [hb1, hb2]

def reqNoHeader : Request :=
  { method := "POST", path := "/t", headers := [], ctxDeadline := none }

/-- Witness for C3: the composite with no credentials allows a request
with no `Authorization` header, and the composite with only a Bearer
token rejects that same request. -/
theorem multiauth_authenticate_spec_witness :
    (NewMultiAuth [] []).Authenticate reqNoHeader = true
    ∧ (NewMultiAuth [] ["tok"]).Authenticate reqNoHeader = false :=
  ⟨multiauth_authenticate_spec.2.1 (NewMultiAuth [] []) reqNoHeader (by decide),
   multiauth_authenticate_spec.2.2.1 (NewMultiAuth [] ["tok"]) reqNoHeader (by decide) (by decide)⟩

def allowAll : MultiAuth := NewMultiAuth [] []

def envOK : WebhookEnv :=
  { bodyRead := some [123], event := .delivered, now := 0, requestID := "rid" }

/-- C5: for every authenticated POST request the topic is the URL path
with leading/trailing `/` stripped; an empty result or one still
containing `/` yields 400 with kind `invalid_topic`; `health`, `ready`
or `metrics` yields 400 with kind `reserved_topic`; the paths
`/my-topic` and `/my.nested.topic` pass topic validation (shown by a
full 202 run with allow-all auth). -/
theorem topic_validation_spec :
    (∀ (m : MultiAuth) (r : Request) (env : WebhookEnv),
        r.method = "POST" → m.Authenticate r = true →
        (stringsTrimSlash r.path = "" ∨ (stringsTrimSlash r.path).toList.contains '/' = true) →
        (webhookHandler m r env).1.status = 400
          ∧ (webhookHandler m r env).1.errorKind = some "invalid_topic")
    ∧ (∀ (m : MultiAuth) (r : Request) (env : WebhookEnv),
        r.method = "POST" → m.Authenticate r = true →
        stringsTrimSlash r.path ≠ "" →
        (stringsTrimSlash r.path).toList.contains '/' = false →
        (stringsTrimSlash r.path = "health" ∨ stringsTrimSlash r.path = "ready"
          ∨ stringsTrimSlash r.path = "metrics") →
        (webhookHandler m r env).1.status = 400
          ∧ (webhookHandler m r env).1.errorKind = some "reserved_topic")
    ∧ ((webhookHandler allowAll
          { method := "POST", path := "/my-topic", headers := [], ctxDeadline := none }
          envOK).1.status = 202)
    ∧ ((webhookHandler allowAll
          { method := "POST", path := "/my.nested.topic", headers := [], ctxDeadline := none }
          envOK).1.status = 202) := by
  refine ⟨?_, ?_, by decide, by decide⟩
  · intro m r env hm ha htop
    unfold webhookHandler
    rcases htop with h | h
    · simp [hm, ha, h, writeError]
    · have hmem : '/' ∈ (stringsTrimSlash r.path).data := by simpa [String.toList] using h
      simp [hm, ha, hmem, writeError]
  · intro m r env hm ha ht1 ht2 hres
    have hmem : '/' ∉ (stringsTrimSlash r.path).data := by simpa [String.toList] using ht2
    unfold webhookHandler
    rcases hres with h | h | h <;> simp [hm, ha, ht1, hmem, h, writeError]

/-- C6: past method/auth/topic checks, a body of exactly `maxBodyBytes`
is accepted (the handler proceeds to the single publish attempt); one
byte over yields 413 `body_too_large`; a zero-length body yields 400
`empty_body`; any other read failure yields 400 `read_error`. -/
theorem body_bounds_spec :
    (∀ (m : MultiAuth) (r : Request) (env : WebhookEnv) (b : List Nat),
        r.method = "POST" → m.Authenticate r = true →
        stringsTrimSlash r.path ≠ "" →
        (stringsTrimSlash r.path).toList.contains '/' = false →
        stringsTrimSlash r.path ≠ "health" → stringsTrimSlash r.path ≠ "ready" →
        stringsTrimSlash r.path ≠ "metrics" →
        env.bodyRead = some b → b.length = maxBodyBytes →
        ((webhookHandler m r env).2).length = 1)
    ∧ (∀ (m : MultiAuth) (r : Request) (env : WebhookEnv) (b : List Nat),
        r.method = "POST" → m.Authenticate r = true →
        stringsTrimSlash r.path ≠ "" →
        (stringsTrimSlash r.path).toList.contains '/' = false →
        stringsTrimSlash r.path ≠ "health" → stringsTrimSlash r.path ≠ "ready" →
        stringsTrimSlash r.path ≠ "metrics" →
        env.bodyRead = some b → b.length = maxBodyBytes + 1 →
        (webhookHandler m r env).1.status = 413
          ∧ (webhookHandler m r env).1.errorKind = some "body_too_large")
    ∧ (∀ (m : MultiAuth) (r : Request) (env : WebhookEnv),
        r.method = "POST" → m.Authenticate r = true →
        stringsTrimSlash r.path ≠ "" →
        (stringsTrimSlash r.path).toList.contains '/' = false →
        stringsTrimSlash r.path ≠ "health" → stringsTrimSlash r.path ≠ "ready" →
        stringsTrimSlash r.path ≠ "metrics" →
        env.bodyRead = some [] →
        (webhookHandler m r env).1.status = 400
          ∧ (webhookHandler m r env).1.errorKind = some "empty_body")
    ∧ (∀ (m : MultiAuth) (r : Request) (env : WebhookEnv),
        r.method = "POST" → m.Authenticate r = true →
        stringsTrimSlash r.path ≠ "" →
        (stringsTrimSlash r.path).toList.contains '/' = false →
        stringsTrimSlash r.path ≠ "health" → stringsTrimSlash r.path ≠ "ready" →
        stringsTrimSlash r.path ≠ "metrics" →
        env.bodyRead = none →
        (webhookHandler m r env).1.status = 400
          ∧ (webhookHandler m r env).1.errorKind = some "read_error") := by
  refine ⟨?_, ?_, ?_, ?_⟩
  · intro m r env b hm ha ht1 ht2 hr1 hr2 hr3 hb hlen
    have hmem : '/' ∉ (stringsTrimSlash r.path).data := by simpa [String.toList] using ht2
    have hne : b ≠ [] := by
      intro hnil
      rw [hnil] at hlen
      exact absurd hlen.symm (by decide)
    have hnlt : ¬ maxBodyBytes < b.length := by omega
    unfold webhookHandler
    cases hev : producerProduce env.event <;>
      simp [hm, ha, ht1, hmem, hr1, hr2, hr3, hb, hnlt, hne, hev]
  · intro m r env b hm ha ht1 ht2 hr1 hr2 hr3 hb hlen
    have hmem : '/' ∉ (stringsTrimSlash r.path).data := by simpa [String.toList] using ht2
    have hlt : maxBodyBytes < b.length := by omega
    unfold webhookHandler
    simp [hm, ha, ht1, hmem, hr1, hr2, hr3, hb, hlt, writeError]
  · intro m r env hm ha ht1 ht2 hr1 hr2 hr3 hb
    have hmem : '/' ∉ (stringsTrimSlash r.path).data := by simpa [String.toList] using ht2
    unfold webhookHandler
    simp [hm, ha, ht1, hmem, hr1, hr2, hr3, hb, maxBodyBytes, writeError]
  · intro m r env hm ha ht1 ht2 hr1 hr2 hr3 hb
    have hmem : '/' ∉ (stringsTrimSlash r.path).data := by simpa [String.toList] using ht2
    unfold webhookHandler
    simp [hm, ha, ht1, hmem, hr1, hr2, hr3, hb, writeError]

def reqPlain : Request :=
  { method := "POST", path := "/events", headers := [], ctxDeadline := none }

def envBig : WebhookEnv :=
  { bodyRead := some (List.replicate maxBodyBytes 0), event := .delivered,
    now := 0, requestID := "rid" }

def envOver : WebhookEnv :=
  { bodyRead := some (List.replicate (maxBodyBytes + 1) 0), event := .delivered,
    now := 0, requestID := "rid" }

/-- Witness for C6: a body of exactly 1 MiB reaches the publish step,
and a body of 1 MiB + 1 byte is rejected with 413. -/
theorem body_bounds_spec_witness :
    ((webhookHandler allowAll reqPlain envBig).2).length = 1
    ∧ (webhookHandler allowAll reqPlain envOver).1.status = 413 :=
  ⟨body_bounds_spec.1 allowAll reqPlain envBig (List.replicate maxBodyBytes 0)
      rfl (by decide) (by decide) (by decide) (by decide) (by decide) (by decide)
      rfl (by simp),
   (body_bounds_spec.2.1 allowAll reqPlain envOver (List.replicate (maxBodyBytes + 1) 0)
      rfl (by decide) (by decide) (by decide) (by decide) (by decide) (by decide)
      rfl (by simp)).1⟩

/-- Witness for C5: `/a/b` yields 400 `invalid_topic` and `/health`
yields `reserved_topic`. -/
theorem topic_validation_spec_witness :
    (webhookHandler allowAll
        { method := "POST", path := "/a/b", headers := [], ctxDeadline := none }
        envOK).1.status = 400
    ∧ (webhookHandler allowAll
        { method := "POST", path := "/health", headers := [], ctxDeadline := none }
        envOK).1.errorKind = some "reserved_topic" :=
  ⟨(topic_validation_spec.1 allowAll
      { method := "POST", path := "/a/b", headers := [], ctxDeadline := none }
      envOK rfl (by decide) (by decide)).1,
   (topic_validation_spec.2.1 allowAll
      { method := "POST", path := "/health", headers := [], ctxDeadline := none }
      envOK rfl (by decide) (by decide) (by decide) (by decide)).2⟩

theorem projectHeaders_lookup_internal (hs : Header) (k : String)
    (hint : isInternalHeader k = true) :
    (projectHeaders hs).lookup k = none := by
  induction hs with
  | nil => rfl
  | cons kv t ih =>
    obtain ⟨k', vs⟩ := kv
    cases vs with
    | nil => simpa [projectHeaders] using ih
    | cons v vrest =>
      by_cases hik : isInternalHeader k' = true
      · simpa [projectHeaders, hik] using ih
      · have hkk : k ≠ k' := by
          intro h
          rw [h] at hint
          exact absurd hint (by simp [hik])
        simp only [projectHeaders, List.filterMap_cons] at ih ⊢
        simp only [hik, Bool.false_eq_true, if_false, List.lookup_cons,
          beq_false_of_ne hkk]
        exact ih

theorem projectHeaders_lookup (hs : Header) : ∀ (k : String) (vs : List String),
    (∀ kv ∈ hs, kv.2 ≠ []) → hs.lookup k = some vs →
    (projectHeaders hs).lookup k = if isInternalHeader k then none else vs.head? := by
  induction hs with
  | nil =>
    intro k vs _ hl
    cases hl
  | cons kv t ih =>
    intro k vs hwf hl
    obtain ⟨k', vs'⟩ := kv
    have hwt : ∀ kv ∈ t, kv.2 ≠ [] := fun kv hm => hwf kv (List.mem_cons_of_mem _ hm)
    have hne' : vs' ≠ [] := hwf (k', vs') (List.mem_cons_self _ _)
    rcases hvs' : vs' with _ | ⟨v, vrest⟩
    · exact absurd hvs' hne'
    · subst hvs'
      by_cases hkk : k = k'
      · subst hkk
        have hvs : v :: vrest = vs := by
          simpa [List.lookup_cons] using hl
        subst hvs
        by_cases hik : isInternalHeader k = true
        · rw [if_pos hik]
          exact projectHeaders_lookup_internal ((k, v :: vrest) :: t) k hik
        · rw [if_neg hik]
          simp [projectHeaders, List.filterMap_cons, hik, List.lookup_cons]
      · have hlt : t.lookup k = some vs := by
          simpa [List.lookup_cons, beq_false_of_ne hkk] using hl
        by_cases hik : isInternalHeader k' = true
        · simp only [projectHeaders, List.filterMap_cons, hik, if_true]
          simpa [projectHeaders] using ih k vs hwt hlt
        · simp only [projectHeaders, List.filterMap_cons, hik, Bool.false_eq_true, if_false,
            List.lookup_cons, beq_false_of_ne hkk]
          simpa [projectHeaders] using ih k vs hwt hlt

theorem projectHeaders_lookup_rev (hs : Header) : ∀ (k v : String),
    (∀ kv ∈ hs, kv.2 ≠ []) →
    (projectHeaders hs).lookup k = some v →
    isInternalHeader k = false ∧ ∃ vs, hs.lookup k = some vs ∧ vs.head? = some v := by
  induction hs with
  | nil =>
    intro k v _ h
    cases h
  | cons kv t ih =>
    intro k v hwf h
    obtain ⟨k', vs'⟩ := kv
    have hwt : ∀ kv ∈ t, kv.2 ≠ [] := fun kv hm => hwf kv (List.mem_cons_of_mem _ hm)
    have hne' : vs' ≠ [] := hwf (k', vs') (List.mem_cons_self _ _)
    rcases hvs' : vs' with _ | ⟨v0, vrest⟩
    · exact absurd hvs' hne'
    · subst hvs'
      by_cases hik : isInternalHeader k' = true
      · have h' : (projectHeaders t).lookup k = some v := by
          simpa [projectHeaders, List.filterMap_cons, hik] using h
        obtain ⟨hint, vs, hlt, hh⟩ := ih k v hwt h'
        have hkk : k ≠ k' := by
          intro he
          subst he
          rw [hint] at hik
          simp at hik
        exact ⟨hint, vs, by simpa [List.lookup_cons, beq_false_of_ne hkk] using hlt, hh⟩
      · by_cases hkk : k = k'
        · subst hkk
          have hv : v0 = v := by
            simpa [projectHeaders, List.filterMap_cons, hik, List.lookup_cons] using h
          subst hv
          exact ⟨by simpa using hik, v0 :: vrest, by simp [List.lookup_cons], rfl⟩
        · have h' : (projectHeaders t).lookup k = some v := by
            simpa [projectHeaders, List.filterMap_cons, hik, List.lookup_cons,
              beq_false_of_ne hkk] using h
          obtain ⟨hint, vs, hlt, hh⟩ := ih k v hwt h'
          exact ⟨hint, vs, by simpa [List.lookup_cons, beq_false_of_ne hkk] using hlt, hh⟩

/-- C7: for every request that reaches the publish step, the outbound
message is deterministic in the request: the value is the raw body
bytes; the key is the raw `X-Webhook-Key` header value when present and
non-empty, absent otherwise; the forwarded headers are exactly the
request headers minus the case-insensitive denylist, the first
occurrence winning for a repeated header. -/
theorem outbound_message_spec (m : MultiAuth) (r : Request) (env : WebhookEnv) (b : List Nat)
    (hwf : ∀ kv ∈ r.headers, kv.2 ≠ [])
    (hm : r.method = "POST") (ha : m.Authenticate r = true)
    (ht1 : stringsTrimSlash r.path ≠ "")
    (ht2 : (stringsTrimSlash r.path).toList.contains '/' = false)
    (hr1 : stringsTrimSlash r.path ≠ "health")
    (hr2 : stringsTrimSlash r.path ≠ "ready")
    (hr3 : stringsTrimSlash r.path ≠ "metrics")
    (hb : env.bodyRead = some b) (hb1 : b.length ≤ maxBodyBytes) (hb2 : b ≠ []) :
    ∃ c : ProduceCall, (webhookHandler m r env).2 = [c]
      ∧ c.value = b
      ∧ (headerGet r.headers "X-Webhook-Key" = "" → c.key = none)
      ∧ (headerGet r.headers "X-Webhook-Key" ≠ "" →
          c.key = some (headerGet r.headers "X-Webhook-Key"))
      ∧ (∀ (k : String) (vs : List String), r.headers.lookup k = some vs →
          c.headers.lookup k = if isInternalHeader k then none else vs.head?)
      ∧ (∀ (k v : String), c.headers.lookup k = some v →
          isInternalHeader k = false
            ∧ ∃ vs, r.headers.lookup k = some vs ∧ vs.head? = some v) := by
  have hmem : '/' ∉ (stringsTrimSlash r.path).data := by simpa [String.toList] using ht2
  have hnlt : ¬ maxBodyBytes < b.length := by omega
  refine ⟨{ topic := stringsTrimSlash r.path
            key := if headerGet r.headers "X-Webhook-Key" ≠ "" then
                     some (headerGet r.headers "X-Webhook-Key")
                   else none
            value := b
            headers := projectHeaders r.headers
            deadline := withTimeout r.ctxDeadline env.now produceTimeout },
    ?_, rfl, ?_, ?_, ?_, ?_⟩
  · unfold webhookHandler
    cases hev : producerProduce env.event <;>
      simp [hm, ha, ht1, hmem, hr1, hr2, hr3, hb, hnlt, hb2, hev]
  · intro hk
    simp [hk]
  · intro hk
    simp [hk]
  · intro k vs hl
    exact projectHeaders_lookup r.headers k vs hwf hl
  · intro k v h
    exact projectHeaders_lookup_rev r.headers k v hwf h

def reqHooked : Request :=
  { method := "POST", path := "/events",
    headers := [("Content-Type", ["application/json"]),
                ("X-Github-Event", ["push", "second"]),
                ("X-Webhook-Key", ["abc"])],
    ctxDeadline := none }

def envSmall : WebhookEnv :=
  { bodyRead := some [123, 125], event := .delivered, now := 0, requestID := "rid" }

/-- Witness for C7: a concrete request with a content type (dropped), a
repeated custom header (first value wins) and an `X-Webhook-Key`. -/
theorem outbound_message_spec_witness :
    ∃ c : ProduceCall, (webhookHandler allowAll reqHooked envSmall).2 = [c]
      ∧ c.value = [123, 125]
      ∧ (headerGet reqHooked.headers "X-Webhook-Key" = "" → c.key = none)
      ∧ (headerGet reqHooked.headers "X-Webhook-Key" ≠ "" →
          c.key = some (headerGet reqHooked.headers "X-Webhook-Key"))
      ∧ (∀ (k : String) (vs : List String), reqHooked.headers.lookup k = some vs →
          c.headers.lookup k = if isInternalHeader k then none else vs.head?)
      ∧ (∀ (k v : String), c.headers.lookup k = some v →
          isInternalHeader k = false
            ∧ ∃ vs, reqHooked.headers.lookup k = some vs ∧ vs.head? = some v) :=
  outbound_message_spec allowAll reqHooked envSmall [123, 125]
    (by decide) rfl (by decide) (by decide) (by decide) (by decide) (by decide) (by decide)
    rfl (by decide) (by decide)

/-- C8: every request failing authentication gets 401 with kind
`unauthorized` and a `WWW-Authenticate` challenge that is the Bearer
realm exactly when the first token of the `Authorization` header is
`bearer` case-insensitively, and the Basic realm in every other case
(missing header, `basic`, or unrecognized scheme); no publish is
attempted. -/
theorem unauthorized_response_spec (m : MultiAuth) (r : Request) (env : WebhookEnv)
    (hm : r.method = "POST") (ha : m.Authenticate r = false) :
    (webhookHandler m r env).1.status = 401
    ∧ (webhookHandler m r env).1.errorKind = some "unauthorized"
    ∧ (webhookHandler m r env).1.wwwAuthenticate =
        some (if stringsToLower
                ((splitNSpace2 (headerGet r.headers "Authorization")).headD "") = "bearer"
              then "Bearer realm=\"kahook\"" else "Basic realm=\"kahook\"")
    ∧ (webhookHandler m r env).2 = [] := by
  unfold webhookHandler writeUnauthorized
  by_cases hs : stringsToLower
      ((splitNSpace2 (headerGet r.headers "Authorization")).head?.getD "") = "bearer" <;>
    simp [hm, ha, hs, writeError, List.headD_eq_head?]

def reqDigest : Request :=
  { method := "POST", path := "/t",
    headers := [("Authorization", ["Digest abc"])], ctxDeadline := none }

/-- Witness for C8: the Bearer-only composite rejects a `Digest` scheme
with the Basic challenge. -/
theorem unauthorized_response_spec_witness :
    (webhookHandler (NewMultiAuth [] ["tok"]) reqDigest envOK).1.status = 401
    ∧ (webhookHandler (NewMultiAuth [] ["tok"]) reqDigest envOK).1.errorKind
        = some "unauthorized"
    ∧ (webhookHandler (NewMultiAuth [] ["tok"]) reqDigest envOK).1.wwwAuthenticate =
        some (if stringsToLower
                ((splitNSpace2 (headerGet reqDigest.headers "Authorization")).headD "")
                  = "bearer"
              then "Bearer realm=\"kahook\"" else "Basic realm=\"kahook\"")
    ∧ (webhookHandler (NewMultiAuth [] ["tok"]) reqDigest envOK).2 = [] :=
  unauthorized_response_spec (NewMultiAuth [] ["tok"]) reqDigest envOK rfl (by decide)

/-- C9: every valid request makes exactly one publish attempt, whose
context deadline is `now + 10s` capped by the request deadline — i.e.
the remaining budget is the minimum of the request's remaining deadline
and the fixed 10-second bound; the `select` in `Producer.Produce`
returns an error when the context's done channel fires first, and every
publish failure (including cancellation) yields 500 `produce_error`
with no further attempt, while a delivery yields 202 with the resolved
topic and the request's correlation identifier. -/
theorem publish_deadline_spec (m : MultiAuth) (r : Request) (env : WebhookEnv) (b : List Nat)
    (hm : r.method = "POST") (ha : m.Authenticate r = true)
    (ht1 : stringsTrimSlash r.path ≠ "")
    (ht2 : (stringsTrimSlash r.path).toList.contains '/' = false)
    (hr1 : stringsTrimSlash r.path ≠ "health")
    (hr2 : stringsTrimSlash r.path ≠ "ready")
    (hr3 : stringsTrimSlash r.path ≠ "metrics")
    (hb : env.bodyRead = some b) (hb1 : b.length ≤ maxBodyBytes) (hb2 : b ≠ []) :
    ∃ c : ProduceCall, (webhookHandler m r env).2 = [c]
      ∧ (r.ctxDeadline = none → c.deadline = env.now + produceTimeout)
      ∧ (∀ pd, r.ctxDeadline = some pd → env.now ≤ pd →
          c.deadline - env.now = min (pd - env.now) produceTimeout)
      ∧ (producerProduce env.event = false →
          (webhookHandler m r env).1.status = 500
            ∧ (webhookHandler m r env).1.errorKind = some "produce_error")
      ∧ (env.event = ProduceEvent.ctxDone → producerProduce env.event = false)
      ∧ (env.event = ProduceEvent.delivered →
          (webhookHandler m r env).1.status = 202
            ∧ (webhookHandler m r env).1.bodyFields =
                [("status", "accepted"), ("topic", stringsTrimSlash r.path),
                 ("request_id", env.requestID)]) := by
  have hmem : '/' ∉ (stringsTrimSlash r.path).data := by simpa [String.toList] using ht2
  have hnlt : ¬ maxBodyBytes < b.length := by omega
  refine ⟨{ topic := stringsTrimSlash r.path
            key := if headerGet r.headers "X-Webhook-Key" ≠ "" then
                     some (headerGet r.headers "X-Webhook-Key")
                   else none
            value := b
            headers := projectHeaders r.headers
            deadline := withTimeout r.ctxDeadline env.now produceTimeout },
    ?_, ?_, ?_, ?_, ?_, ?_⟩
  · unfold webhookHandler
    cases hev : producerProduce env.event <;>
      simp [hm, ha, ht1, hmem, hr1, hr2, hr3, hb, hnlt, hb2, hev]
  · intro hd
    simp [withTimeout, hd]
  · intro pd hd hle
    simp only [withTimeout, hd]
    omega
  · intro hev
    unfold webhookHandler
    simp [hm, ha, ht1, hmem, hr1, hr2, hr3, hb, hnlt, hb2, hev, writeError]
  · intro hev
    rw [hev]
    rfl
  · intro hev
    unfold webhookHandler
    simp [hm, ha, ht1, hmem, hr1, hr2, hr3, hb, hnlt, hb2, hev, producerProduce]

def reqDeadline : Request :=
  { method := "POST", path := "/events", headers := [],
    ctxDeadline := some 7000000000 }

def envCancelled : WebhookEnv :=
  { bodyRead := some [1], event := .ctxDone, now := 1000000000, requestID := "rid" }

/-- Witness for C9: a request whose context deadline (7s) is earlier
than `now + 10s`, with the produce wait cancelled by the context. -/
theorem publish_deadline_spec_witness :
    ∃ c : ProduceCall, (webhookHandler allowAll reqDeadline envCancelled).2 = [c]
      ∧ (reqDeadline.ctxDeadline = none → c.deadline = envCancelled.now + produceTimeout)
      ∧ (∀ pd, reqDeadline.ctxDeadline = some pd → envCancelled.now ≤ pd →
          c.deadline - envCancelled.now = min (pd - envCancelled.now) produceTimeout)
      ∧ (producerProduce envCancelled.event = false →
          (webhookHandler allowAll reqDeadline envCancelled).1.status = 500
            ∧ (webhookHandler allowAll reqDeadline envCancelled).1.errorKind
                = some "produce_error")
      ∧ (envCancelled.event = ProduceEvent.ctxDone →
          producerProduce envCancelled.event = false)
      ∧ (envCancelled.event = ProduceEvent.delivered →
          (webhookHandler allowAll reqDeadline envCancelled).1.status = 202
            ∧ (webhookHandler allowAll reqDeadline envCancelled).1.bodyFields =
                [("status", "accepted"), ("topic", stringsTrimSlash reqDeadline.path),
                 ("request_id", envCancelled.requestID)]) :=
  publish_deadline_spec allowAll reqDeadline envCancelled [1]
    rfl (by decide) (by decide) (by decide) (by decide) (by decide) (by decide)
    rfl (by decide) (by decide)

/-- C10: the reserved-topic check compares with `==` on exact strings,
so it is case-sensitive: a trimmed segment differing in case from a
reserved name is never rejected as `reserved_topic` and proceeds as an
ordinary publish topic (`/Health`, `/READY`, `/Metrics` reach a 202
publish of that exact topic), while exactly `health`, `ready` and
`metrics` are rejected as reserved. -/
theorem reserved_topic_case_sensitive :
    (∀ (m : MultiAuth) (r : Request) (env : WebhookEnv),
        r.method = "POST" → m.Authenticate r = true →
        stringsTrimSlash r.path ∉ (["health", "ready", "metrics"] : List String) →
        (webhookHandler m r env).1.errorKind ≠ some "reserved_topic")
    ∧ (∀ (m : MultiAuth) (r : Request) (env : WebhookEnv),
        r.method = "POST" → m.Authenticate r = true →
        stringsTrimSlash r.path ∈ (["health", "ready", "metrics"] : List String) →
        (webhookHandler m r env).1.errorKind = some "reserved_topic")
    ∧ ((webhookHandler allowAll
          { method := "POST", path := "/Health", headers := [], ctxDeadline := none }
          envOK).1.status = 202
        ∧ (webhookHandler allowAll
            { method := "POST", path := "/Health", headers := [], ctxDeadline := none }
            envOK).2.map ProduceCall.topic = ["Health"])
    ∧ ((webhookHandler allowAll
          { method := "POST", path := "/READY", headers := [], ctxDeadline := none }
          envOK).1.status = 202)
    ∧ ((webhookHandler allowAll
          { method := "POST", path := "/Metrics", headers := [], ctxDeadline := none }
          envOK).1.status = 202) := by
  refine ⟨?_, ?_, ⟨by decide, by decide⟩, by decide, by decide⟩
  · intro m r env hm ha hnot
    have h1 : stringsTrimSlash r.path ≠ "health" := by
      intro h
      exact hnot (by simp [h])
    have h2 : stringsTrimSlash r.path ≠ "ready" := by
      intro h
      exact hnot (by simp [h])
    have h3 : stringsTrimSlash r.path ≠ "metrics" := by
      intro h
      exact hnot (by simp [h])
    unfold webhookHandler
    by_cases hbad : stringsTrimSlash r.path = "" ∨ '/' ∈ (stringsTrimSlash r.path).data
    · simp [hm, ha, hbad, writeError]
    · rcases hb : env.bodyRead with _ | body
      · simp [hm, ha, hbad, h1, h2, h3, hb, writeError]
      · by_cases hlen : maxBodyBytes < body.length
        · simp [hm, ha, hbad, h1, h2, h3, hb, hlen, writeError]
        · by_cases hnil : body = []
          · simp [hm, ha, hbad, h1, h2, h3, hb, hlen, hnil, writeError]
          · cases hev : producerProduce env.event <;>
              simp [hm, ha, hbad, h1, h2, h3, hb, hlen, hnil, hev, writeError]
  · intro m r env hm ha hmem
    have hmem' : stringsTrimSlash r.path = "health" ∨ stringsTrimSlash r.path = "ready"
        ∨ stringsTrimSlash r.path = "metrics" := by simpa using hmem
    unfold webhookHandler
    rcases hmem' with h | h | h <;> rw [h] <;> simp [hm, ha, writeError]

/-- Witness for C10: `/Health` is not rejected as reserved while
`/health` is. -/
theorem reserved_topic_case_sensitive_witness :
    (webhookHandler allowAll
        { method := "POST", path := "/Health", headers := [], ctxDeadline := none }
        envOK).1.errorKind ≠ some "reserved_topic"
    ∧ (webhookHandler allowAll
        { method := "POST", path := "/health", headers := [], ctxDeadline := none }
        envOK).1.errorKind = some "reserved_topic" :=
  ⟨reserved_topic_case_sensitive.1 allowAll
      { method := "POST", path := "/Health", headers := [], ctxDeadline := none }
      envOK rfl (by decide) (by decide),
   reserved_topic_case_sensitive.2.1 allowAll
      { method := "POST", path := "/health", headers := [], ctxDeadline := none }
      envOK rfl (by decide) (by decide)⟩
